import Mathlib

/-!
Shallow embedding of the WeatherStation repository
(weather_monitoring/station.py and weather_monitoring/observers.py).

Measurements are Python floats used only in order comparisons and
assignments, so they are modelled as rationals.  Observer handles are
compared by identity in the Python registry (the observer classes define
no structural equality), so observers are modelled by natural-number
identities.  A print call by an observer is modelled as a value of the
inductive type Output; delivery of an update to an observer is modelled
as an Event recording the observer identity and the exact triple passed.
-/

namespace WeatherMonitoring

/-- The field named by a validation error, in the order the checks occur in
station.py. -/
inductive MField where
  | temperature
  | humidity
  | wind_speed
  deriving DecidableEq, Repr

/-- The ValueError raised by WeatherStation.validate_measurements: each of the
three messages names the offending field and carries the offending value
(the spec calls this InvalidMeasurement(field, value)). -/
structure InvalidMeasurement where
  field : MField
  value : ℚ
  deriving DecidableEq, Repr

/-- State of a WeatherStation object: the observer registry (identities, in
insertion order) and the three stored measurements, as initialised and
mutated in station.py. -/
structure WeatherStation where
  observers : List ℕ
  temperature : ℚ
  humidity : ℚ
  wind_speed : ℚ
  deriving DecidableEq, Repr

/-- WeatherStation.__init__: empty observer list and zero measurements. -/
def WeatherStation.init : WeatherStation :=
  { observers := [], temperature := 0, humidity := 0, wind_speed := 0 }

/-- WeatherStation.register_observer: appends the observer unless an entry
with the same identity is already present. -/
def register_observer (s : WeatherStation) (o : ℕ) : WeatherStation :=
  if o ∈ s.observers then s
  else { s with observers := s.observers ++ [o] }

/-- WeatherStation.remove_observer: removes the first entry with the same
identity if present, otherwise does nothing. -/
def remove_observer (s : WeatherStation) (o : ℕ) : WeatherStation :=
  if o ∈ s.observers then { s with observers := s.observers.erase o }
  else s

/-- One delivered update: the receiving observer's identity and the exact
(temperature, humidity, wind_speed) triple passed to its update method. -/
abbrev Event := ℕ × ℚ × ℚ × ℚ

/-- The for-loop body of WeatherStation.notify_observers: calls
observer.update(t, h, w) on each registered observer in registry order. -/
def notifyLoop (t h w : ℚ) : List ℕ → List Event
  | [] => []
  | o :: rest => (o, t, h, w) :: notifyLoop t h w rest

/-- WeatherStation.notify_observers: delivers the currently stored
measurements to every registered observer, in registration order. -/
def notify_observers (s : WeatherStation) : List Event :=
  notifyLoop s.temperature s.humidity s.wind_speed s.observers

/-- WeatherStation.validate_measurements: checks temperature, then humidity,
then wind_speed, raising on the first violated rule. -/
def validate_measurements (t h w : ℚ) : Except InvalidMeasurement Unit :=
  if ¬(-100 ≤ t ∧ t ≤ 100) then Except.error ⟨MField.temperature, t⟩
  else if ¬(0 ≤ h ∧ h ≤ 100) then Except.error ⟨MField.humidity, h⟩
  else if w < 0 then Except.error ⟨MField.wind_speed, w⟩
  else Except.ok ()

/-- WeatherStation.set_measurements: validates first (an error propagates
before any assignment, leaving the object unchanged), then stores the three
values and notifies observers.  Returns the station state after the call and
either the validation error or the list of delivered updates. -/
def set_measurements (s : WeatherStation) (t h w : ℚ) :
    WeatherStation × Except InvalidMeasurement (List Event) :=
  match validate_measurements t h w with
  | Except.error e => (s, Except.error e)
  | Except.ok () =>
      let s₁ : WeatherStation :=
        { s with temperature := t, humidity := h, wind_speed := w }
      (s₁, Except.ok (notify_observers s₁))

/-- The for-loop of notify_observers when an observer's update may itself
raise: fails o = true means observer o raises when updated.  The exception
propagates at once, so iteration stops; the result is the list of updates
delivered before the failure and the identity of the failing observer, if
any. -/
def notifyLoopExc (fails : ℕ → Bool) (t h w : ℚ) :
    List ℕ → List Event × Option ℕ
  | [] => ([], none)
  | o :: rest =>
      if fails o then ([], some o)
      else
        match notifyLoopExc fails t h w rest with
        | (evs, f) => ((o, t, h, w) :: evs, f)

/-- set_measurements when observer updates may raise.  Validation still comes
first; on success the three assignments have already happened when
notification starts, so an observer failure leaves the new reading stored.
Result: final station state, updates actually delivered, and the failure
that propagated to the caller (a validation error or a failing observer's
identity), if any. -/
def set_measurements_exc (fails : ℕ → Bool) (s : WeatherStation) (t h w : ℚ) :
    WeatherStation × List Event × Option (InvalidMeasurement ⊕ ℕ) :=
  match validate_measurements t h w with
  | Except.error e => (s, [], some (Sum.inl e))
  | Except.ok () =>
      let s₁ : WeatherStation :=
        { s with temperature := t, humidity := h, wind_speed := w }
      match notifyLoopExc fails s₁.temperature s₁.humidity s₁.wind_speed s₁.observers with
      | (evs, f) => (s₁, evs, f.map Sum.inr)

/-- A call a driver can make on a station: the four public operations of
station.py. -/
inductive Cmd where
  | reg (o : ℕ)
  | rem (o : ℕ)
  | set (t h w : ℚ)
  | notify
  deriving DecidableEq, Repr

/-- One call on the station: the resulting state and the updates delivered
during the call (a failing set_measurements delivers none and leaves the
state unchanged). -/
def step (s : WeatherStation) : Cmd → WeatherStation × List Event
  | Cmd.reg o => (register_observer s o, [])
  | Cmd.rem o => (remove_observer s o, [])
  | Cmd.set t h w =>
      match set_measurements s t h w with
      | (s₁, Except.ok evs) => (s₁, evs)
      | (s₁, Except.error _) => (s₁, [])
  | Cmd.notify => (s, notify_observers s)

/-- Station state after a sequence of calls. -/
def run (s : WeatherStation) : List Cmd → WeatherStation
  | [] => s
  | c :: cs => run (step s c).1 cs

/-- All updates delivered during a sequence of calls, in order. -/
def runEvents (s : WeatherStation) : List Cmd → List Event
  | [] => []
  | c :: cs => (step s c).2 ++ runEvents (step s c).1 cs

/-- The stored reading of a station state, as a triple. -/
def reading (s : WeatherStation) : ℚ × ℚ × ℚ :=
  (s.temperature, s.humidity, s.wind_speed)

/-- The argument of the last set call in the sequence that passes
validation, if any. -/
def lastValidSet : List Cmd → Option (ℚ × ℚ × ℚ)
  | [] => none
  | Cmd.set t h w :: cs =>
      match lastValidSet cs with
      | some r => some r
      | none =>
          if (validate_measurements t h w).isOk then some (t, h, w) else none
  | _ :: cs => lastValidSet cs

/-- A print emitted by one of the observers in observers.py, carrying the
values interpolated into the message (display formatting truncates them to
int, which does not change which values the message names). -/
inductive Output where
  | temperatureAlert (threshold value : ℚ)
  | humidityAlert (threshold value : ℚ)
  | windIncreasing (previous current : ℚ)
  | windNoTrend
  deriving DecidableEq, Repr

/-- TemperatureAlert.update: prints an alert naming the threshold and the
triggering temperature when temperature > threshold (strict), else nothing. -/
def TemperatureAlert.update (threshold t h w : ℚ) : Option Output :=
  if t > threshold then some (Output.temperatureAlert threshold t) else none

/-- HumidityAlert.update: prints an alert naming the threshold and the
triggering humidity when humidity >= threshold, else nothing. -/
def HumidityAlert.update (threshold t h w : ℚ) : Option Output :=
  if h ≥ threshold then some (Output.humidityAlert threshold h) else none

/-- WindSpeedAlert.update: with no previous value, prints nothing; otherwise
prints the increasing alert (naming previous and current wind speed) when
current > previous, else the no-upward-trend line.  In every case the
stored previous value becomes the current wind speed.  Returns (new stored
value, output). -/
def WindSpeedAlert.update (last : Option ℚ) (t h w : ℚ) :
    Option ℚ × Option Output :=
  match last with
  | none => (some w, none)
  | some prev =>
      if w > prev then (some w, some (Output.windIncreasing prev w))
      else (some w, some Output.windNoTrend)

/-- A sequence of updates delivered to one WindSpeedAlert instance: final
stored value and the output of each call, in order. -/
def WindSpeedAlert.runUpdates (last : Option ℚ) :
    List (ℚ × ℚ × ℚ) → Option ℚ × List (Option Output)
  | [] => (last, [])
  | (t, h, w) :: rs =>
      match WindSpeedAlert.update last t h w with
      | (st, out) =>
          match WindSpeedAlert.runUpdates st rs with
          | (fin, outs) => (fin, out :: outs)

/-- The validated range of station.py: temperature in [-100, 100], humidity
in [0, 100], wind_speed nonnegative. -/
def validTriple (t h w : ℚ) : Prop :=
  -100 ≤ t ∧ t ≤ 100 ∧ 0 ≤ h ∧ h ≤ 100 ∧ 0 ≤ w

instance (t h w : ℚ) : Decidable (validTriple t h w) := by
  unfold validTriple; infer_instance

end WeatherMonitoring

deriving instance DecidableEq for Except

namespace WeatherMonitoring

/-! ### Helper lemmas -/

/-- Exhaustive case analysis of validate_measurements: exactly one of the
four outcomes occurs, with the side conditions describing when. -/
theorem validate_cases (t h w : ℚ) :
    (¬(-100 ≤ t ∧ t ≤ 100)
      ∧ validate_measurements t h w = Except.error ⟨MField.temperature, t⟩)
  ∨ ((-100 ≤ t ∧ t ≤ 100) ∧ ¬(0 ≤ h ∧ h ≤ 100)
      ∧ validate_measurements t h w = Except.error ⟨MField.humidity, h⟩)
  ∨ ((-100 ≤ t ∧ t ≤ 100) ∧ (0 ≤ h ∧ h ≤ 100) ∧ w < 0
      ∧ validate_measurements t h w = Except.error ⟨MField.wind_speed, w⟩)
  ∨ (validTriple t h w ∧ validate_measurements t h w = Except.ok ()) := by
  unfold validate_measurements
  by_cases c1 : -100 ≤ t ∧ t ≤ 100
  · by_cases c2 : 0 ≤ h ∧ h ≤ 100
    · by_cases c3 : w < 0
      · refine Or.inr (Or.inr (Or.inl ⟨c1, c2, c3, ?_⟩))
        rw [if_neg (not_not.mpr c1), if_neg (not_not.mpr c2), if_pos c3]
      · refine Or.inr (Or.inr (Or.inr
          ⟨⟨c1.1, c1.2, c2.1, c2.2, not_lt.mp c3⟩, ?_⟩))
        rw [if_neg (not_not.mpr c1), if_neg (not_not.mpr c2), if_neg c3]
    · refine Or.inr (Or.inl ⟨c1, c2, ?_⟩)
      rw [if_neg (not_not.mpr c1), if_pos c2]
  · refine Or.inl ⟨c1, ?_⟩
    rw [if_pos c1]

theorem validate_ok_iff (t h w : ℚ) :
    validate_measurements t h w = Except.ok () ↔ validTriple t h w := by
  rcases validate_cases t h w with ⟨hc, he⟩ | ⟨_, hc, he⟩ | ⟨_, _, hc, he⟩ | ⟨hv, he⟩
  · rw [he]
    exact ⟨fun hx => absurd hx (by simp), fun hv => absurd ⟨hv.1, hv.2.1⟩ hc⟩
  · rw [he]
    exact ⟨fun hx => absurd hx (by simp),
      fun hv => absurd ⟨hv.2.2.1, hv.2.2.2.1⟩ hc⟩
  · rw [he]
    exact ⟨fun hx => absurd hx (by simp),
      fun hv => absurd hv.2.2.2.2 (not_le.mpr hc)⟩
  · rw [he]
    exact ⟨fun _ => hv, fun _ => rfl⟩

theorem validate_error_iff (t h w : ℚ) :
    (∃ e, validate_measurements t h w = Except.error e) ↔ ¬ validTriple t h w := by
  constructor
  · rintro ⟨e, he⟩ hv
    rw [(validate_ok_iff t h w).mpr hv] at he
    exact Except.noConfusion he
  · intro hv
    rcases hval : validate_measurements t h w with e | u
    · exact ⟨e, rfl⟩
    · cases u
      exact absurd ((validate_ok_iff t h w).mp hval) hv

theorem notifyLoop_eq_map (t h w : ℚ) (os : List ℕ) :
    notifyLoop t h w os = os.map fun o => (o, t, h, w) := by
  induction os with
  | nil => rfl
  | cons o rest ih => simp [notifyLoop, ih]

theorem set_measurements_snd_error (s : WeatherStation) (t h w : ℚ)
    (e : InvalidMeasurement) :
    (set_measurements s t h w).2 = Except.error e ↔
      validate_measurements t h w = Except.error e := by
  constructor
  · intro he
    rcases hval : validate_measurements t h w with e' | u
    · rw [set_measurements, hval] at he
      simpa using he
    · cases u
      rw [set_measurements, hval] at he
      simp at he
  · intro he
    simp [set_measurements, he]

/-- The disjunctive out-of-range condition is the negation of validTriple. -/
theorem outOfRange_iff_not_valid (t h w : ℚ) :
    (t < -100 ∨ 100 < t ∨ h < 0 ∨ 100 < h ∨ w < 0) ↔ ¬ validTriple t h w := by
  unfold validTriple
  constructor
  · rintro (hc | hc | hc | hc | hc) ⟨v1, v2, v3, v4, v5⟩ <;> linarith
  · intro hv
    by_cases c1 : -100 ≤ t
    · by_cases c2 : t ≤ 100
      · by_cases c3 : 0 ≤ h
        · by_cases c4 : h ≤ 100
          · by_cases c5 : 0 ≤ w
            · exact absurd ⟨c1, c2, c3, c4, c5⟩ hv
            · exact Or.inr (Or.inr (Or.inr (Or.inr (not_le.mp c5))))
          · exact Or.inr (Or.inr (Or.inr (Or.inl (not_le.mp c4))))
        · exact Or.inr (Or.inr (Or.inl (not_le.mp c3)))
      · exact Or.inr (Or.inl (not_le.mp c2))
    · exact Or.inl (not_le.mp c1)

/-! ### Claim theorems -/

/-- C1: set_measurements fails with an InvalidMeasurement error naming the
offending field and value iff temperature is outside [-100, 100], humidity
is outside [0, 100], or wind_speed is negative (boundaries inclusive, so
triples on the boundary succeed); when several fields are invalid the field
reported is the first violated one in the order temperature, humidity,
wind_speed. -/
theorem C1_set_measurements_validation (s : WeatherStation) (t h w : ℚ) :
    ((∃ e, (set_measurements s t h w).2 = Except.error e) ↔
      (t < -100 ∨ 100 < t ∨ h < 0 ∨ 100 < h ∨ w < 0))
  ∧ ∀ e, (set_measurements s t h w).2 = Except.error e →
      (((t < -100 ∨ 100 < t) → e = ⟨MField.temperature, t⟩)
      ∧ (-100 ≤ t → t ≤ 100 → (h < 0 ∨ 100 < h) → e = ⟨MField.humidity, h⟩)
      ∧ (-100 ≤ t → t ≤ 100 → 0 ≤ h → h ≤ 100 → e = ⟨MField.wind_speed, w⟩)) := by
  constructor
  · rw [outOfRange_iff_not_valid]
    constructor
    · rintro ⟨e, he⟩
      exact (validate_error_iff t h w).mp ⟨e, (set_measurements_snd_error s t h w e).mp he⟩
    · intro hv
      rcases (validate_error_iff t h w).mpr hv with ⟨e, he⟩
      exact ⟨e, (set_measurements_snd_error s t h w e).mpr he⟩
  · intro e he
    have hv := (set_measurements_snd_error s t h w e).mp he
    rcases validate_cases t h w with ⟨hc, hcase⟩ | ⟨hc1, hc, hcase⟩ |
        ⟨hc1, hc2, hc, hcase⟩ | ⟨_, hcase⟩
    · rw [hcase] at hv
      have he' : e = ⟨MField.temperature, t⟩ := by simpa using hv.symm
      refine ⟨fun _ => he', fun d1 d2 _ => absurd ⟨d1, d2⟩ hc,
        fun d1 d2 _ _ => absurd ⟨d1, d2⟩ hc⟩
    · rw [hcase] at hv
      have he' : e = ⟨MField.humidity, h⟩ := by simpa using hv.symm
      refine ⟨fun hd => ?_, fun _ _ _ => he', fun _ _ d3 d4 => absurd ⟨d3, d4⟩ hc⟩
      rcases hd with hd | hd
      · exact absurd hc1.1 (not_le.mpr hd)
      · exact absurd hc1.2 (not_le.mpr hd)
    · rw [hcase] at hv
      have he' : e = ⟨MField.wind_speed, w⟩ := by simpa using hv.symm
      refine ⟨fun hd => ?_, fun _ _ hd => ?_, fun _ _ _ _ => he'⟩
      · rcases hd with hd | hd
        · exact absurd hc1.1 (not_le.mpr hd)
        · exact absurd hc1.2 (not_le.mpr hd)
      · rcases hd with hd | hd
        · exact absurd hc2.1 (not_le.mpr hd)
        · exact absurd hc2.2 (not_le.mpr hd)
    · rw [hcase] at hv
      exact absurd hv (by simp)

/-- C1 witness: on the fresh station, set_measurements (200, -5, -1) fails
and the reported error names temperature with value 200 (the first violated
field of the three). -/
theorem C1_set_measurements_validation_witness :
    (∃ e, (set_measurements WeatherStation.init 200 (-5) (-1)).2 = Except.error e)
  ∧ ∀ e, (set_measurements WeatherStation.init 200 (-5) (-1)).2 = Except.error e →
      e = ⟨MField.temperature, 200⟩ := by
  refine ⟨(C1_set_measurements_validation WeatherStation.init 200 (-5) (-1)).1.mpr
      (by norm_num), fun e he => ?_⟩
  exact ((C1_set_measurements_validation WeatherStation.init 200 (-5) (-1)).2 e he).1
    (by norm_num)

/-- C2: a failing set_measurements call leaves the whole station state
(stored reading and observer registry) exactly as before, returns a
validation error, and delivers no update to any observer. -/
theorem C2_failed_set_is_atomic (s : WeatherStation) (t h w : ℚ)
    (hbad : t < -100 ∨ 100 < t ∨ h < 0 ∨ 100 < h ∨ w < 0) :
    (set_measurements s t h w).1 = s
  ∧ (∃ e, (set_measurements s t h w).2 = Except.error e)
  ∧ step s (Cmd.set t h w) = (s, []) := by
  have hv : ¬ validTriple t h w := (outOfRange_iff_not_valid t h w).mp hbad
  rcases (validate_error_iff t h w).mpr hv with ⟨e, he⟩
  have hset : set_measurements s t h w = (s, Except.error e) := by
    rw [set_measurements, he]
  refine ⟨by rw [hset], ⟨e, by rw [hset]⟩, ?_⟩
  rw [step, hset]

/-- C2 witness: set_measurements (25, 101, 5) on the station with registry
[7] and reading (1, 2, 3) fails, changes nothing, and delivers nothing. -/
theorem C2_failed_set_is_atomic_witness :
    (set_measurements ⟨[7], 1, 2, 3⟩ 25 101 5).1 = ⟨[7], 1, 2, 3⟩
  ∧ (∃ e, (set_measurements ⟨[7], 1, 2, 3⟩ 25 101 5).2 = Except.error e)
  ∧ step ⟨[7], 1, 2, 3⟩ (Cmd.set 25 101 5) = (⟨[7], 1, 2, 3⟩, []) :=
  C2_failed_set_is_atomic ⟨[7], 1, 2, 3⟩ 25 101 5 (by norm_num)

/-- C3: a successful set_measurements call stores the new triple (leaving
the registry unchanged) and delivers exactly one update to each currently
registered observer, in registration order, carrying exactly the new
values. -/
theorem C3_successful_set_notifies_each_once (s : WeatherStation) (t h w : ℚ)
    (hok : validTriple t h w) :
    set_measurements s t h w =
      ({ s with temperature := t, humidity := h, wind_speed := w },
       Except.ok (s.observers.map fun o => (o, t, h, w))) := by
  have hv : validate_measurements t h w = Except.ok () :=
    (validate_ok_iff t h w).mpr hok
  rw [set_measurements, hv]
  simp [notify_observers, notifyLoop_eq_map]

/-- C3 witness: on a station with registry [3, 1, 2], set_measurements
(25, 60, 15) stores the triple and delivers it once to 3, 1, 2 in order. -/
theorem C3_successful_set_notifies_each_once_witness :
    set_measurements ⟨[3, 1, 2], 0, 0, 0⟩ 25 60 15 =
      (⟨[3, 1, 2], 25, 60, 15⟩,
       Except.ok [(3, 25, 60, 15), (1, 25, 60, 15), (2, 25, 60, 15)]) :=
  C3_successful_set_notifies_each_once ⟨[3, 1, 2], 0, 0, 0⟩ 25 60 15 (by norm_num [validTriple])

theorem register_observer_observers (s : WeatherStation) (o : ℕ) :
    (register_observer s o).observers =
      if o ∈ s.observers then s.observers else s.observers ++ [o] := by
  unfold register_observer
  split_ifs <;> rfl

theorem remove_observer_observers (s : WeatherStation) (o : ℕ) :
    (remove_observer s o).observers = s.observers.erase o := by
  unfold remove_observer
  split_ifs with hmem
  · rfl
  · exact (List.erase_of_not_mem hmem).symm

theorem set_measurements_fst_observers (s : WeatherStation) (t h w : ℚ) :
    (set_measurements s t h w).1.observers = s.observers := by
  rcases hval : validate_measurements t h w with e | u
  · simp [set_measurements, hval]
  · cases u
    simp [set_measurements, hval]

theorem step_preserves_nodup (s : WeatherStation) (c : Cmd)
    (hn : s.observers.Nodup) : (step s c).1.observers.Nodup := by
  cases c with
  | reg o =>
      rw [step, register_observer_observers]
      split_ifs with hmem
      · exact hn
      · rw [← List.concat_eq_append]
        exact hn.concat hmem
  | rem o =>
      rw [step, remove_observer_observers]
      exact (s.observers.erase_sublist o).nodup hn
  | set t h w =>
      have hobs := set_measurements_fst_observers s t h w
      rw [step]
      rcases hset : set_measurements s t h w with ⟨s₁, r⟩
      rw [hset] at hobs
      change s₁.observers = s.observers at hobs
      cases r
      · simpa [hobs] using hn
      · simpa [hobs] using hn
  | notify => exact hn

theorem run_preserves_nodup (cs : List Cmd) (s : WeatherStation)
    (hn : s.observers.Nodup) : (run s cs).observers.Nodup := by
  induction cs generalizing s with
  | nil => exact hn
  | cons c cs ih => exact ih _ (step_preserves_nodup s c hn)

/-- C4: across any sequence of calls starting from a fresh station the
registry never holds two entries with the same identity; registering an
already-registered observer and removing an absent observer are no-ops
(no error); and both operations preserve the relative order of the
remaining entries (the old registry is a sublist of the new one after
register, the new registry a sublist of the old after remove). -/
theorem C4_registry_invariants :
    (∀ cs : List Cmd, (run WeatherStation.init cs).observers.Nodup)
  ∧ (∀ s : WeatherStation, ∀ o, o ∈ s.observers → register_observer s o = s)
  ∧ (∀ s : WeatherStation, ∀ o, o ∉ s.observers → remove_observer s o = s)
  ∧ (∀ s : WeatherStation, ∀ o,
      (remove_observer s o).observers.Sublist s.observers
      ∧ s.observers.Sublist (register_observer s o).observers) := by
  refine ⟨fun cs => run_preserves_nodup cs WeatherStation.init (by simp [WeatherStation.init]),
    fun s o hmem => by rw [register_observer, if_pos hmem],
    fun s o hmem => by rw [remove_observer, if_neg hmem],
    fun s o => ⟨?_, ?_⟩⟩
  · rw [remove_observer_observers]
    exact s.observers.erase_sublist o
  · rw [register_observer_observers]
    split_ifs
    · exact List.Sublist.refl _
    · exact List.sublist_append_left _ _

/-- C4 witness: after [reg 1, reg 1, reg 2, rem 5] the registry is
duplicate-free; registering 1 again on that station is a no-op, as is
removing the absent 5; and order is preserved. -/
theorem C4_registry_invariants_witness :
    (run WeatherStation.init [Cmd.reg 1, Cmd.reg 1, Cmd.reg 2, Cmd.rem 5]).observers.Nodup
  ∧ register_observer ⟨[1, 2], 0, 0, 0⟩ 1 = ⟨[1, 2], 0, 0, 0⟩
  ∧ remove_observer ⟨[1, 2], 0, 0, 0⟩ 5 = ⟨[1, 2], 0, 0, 0⟩
  ∧ (remove_observer ⟨[1, 2], 0, 0, 0⟩ 1).observers.Sublist [1, 2] :=
  ⟨C4_registry_invariants.1 [Cmd.reg 1, Cmd.reg 1, Cmd.reg 2, Cmd.rem 5],
   C4_registry_invariants.2.1 ⟨[1, 2], 0, 0, 0⟩ 1 (by decide),
   C4_registry_invariants.2.2.1 ⟨[1, 2], 0, 0, 0⟩ 5 (by decide),
   (C4_registry_invariants.2.2.2 ⟨[1, 2], 0, 0, 0⟩ 1).1⟩

/-- C5: for every threshold, TemperatureAlert emits an alert iff
temperature > threshold (strict: equality emits nothing) and HumidityAlert
emits an alert iff humidity >= threshold (equality fires); when the
condition fails the observer produces no output at all. -/
theorem C5_threshold_alert_conditions (threshold t h w : ℚ) :
    ((TemperatureAlert.update threshold t h w).isSome ↔ t > threshold)
  ∧ (t > threshold →
      TemperatureAlert.update threshold t h w =
        some (Output.temperatureAlert threshold t))
  ∧ (¬ t > threshold → TemperatureAlert.update threshold t h w = none)
  ∧ ((HumidityAlert.update threshold t h w).isSome ↔ h ≥ threshold)
  ∧ (h ≥ threshold →
      HumidityAlert.update threshold t h w =
        some (Output.humidityAlert threshold h))
  ∧ (¬ h ≥ threshold → HumidityAlert.update threshold t h w = none) := by
  unfold TemperatureAlert.update HumidityAlert.update
  by_cases c1 : t > threshold <;> by_cases c2 : h ≥ threshold <;>
    simp [c1, c2]

/-- C5 witness: with threshold 30, temperature 30 emits nothing (equality
does not fire) and 31 emits the alert; with threshold 85, humidity 85 emits
the alert (equality fires). -/
theorem C5_threshold_alert_conditions_witness :
    TemperatureAlert.update 30 30 0 0 = none
  ∧ TemperatureAlert.update 30 31 0 0 = some (Output.temperatureAlert 30 31)
  ∧ HumidityAlert.update 85 25 85 10 = some (Output.humidityAlert 85 85) :=
  ⟨(C5_threshold_alert_conditions 30 30 0 0).2.2.1 (by norm_num),
   (C5_threshold_alert_conditions 30 31 0 0).2.1 (by norm_num),
   (C5_threshold_alert_conditions 85 25 85 10).2.2.2.2.1 (by norm_num)⟩

theorem windspeed_update_fst (last : Option ℚ) (t h w : ℚ) :
    (WindSpeedAlert.update last t h w).1 = some w := by
  rcases last with _ | prev
  · rfl
  · simp only [WindSpeedAlert.update]
    split_ifs <;> rfl

theorem windspeed_runUpdates_cons (last : Option ℚ) (t h w : ℚ)
    (rs : List (ℚ × ℚ × ℚ)) :
    WindSpeedAlert.runUpdates last ((t, h, w) :: rs) =
      ((WindSpeedAlert.runUpdates (WindSpeedAlert.update last t h w).1 rs).1,
       (WindSpeedAlert.update last t h w).2 ::
         (WindSpeedAlert.runUpdates (WindSpeedAlert.update last t h w).1 rs).2) := by
  rcases hu : WindSpeedAlert.update last t h w with ⟨st, out⟩
  rcases hr : WindSpeedAlert.runUpdates st rs with ⟨fin, outs⟩
  simp [WindSpeedAlert.runUpdates, hu, hr]

theorem windspeed_runUpdates_final (last : Option ℚ) (r : ℚ × ℚ × ℚ)
    (rs : List (ℚ × ℚ × ℚ)) :
    (WindSpeedAlert.runUpdates last (r :: rs)).1 =
      some (((r :: rs).getLast (List.cons_ne_nil r rs)).2.2) := by
  induction rs generalizing last r with
  | nil =>
      rcases r with ⟨t, hm, w⟩
      simp [windspeed_runUpdates_cons, WindSpeedAlert.runUpdates,
        windspeed_update_fst]
  | cons r' rs ih =>
      rcases r with ⟨t, hm, w⟩
      simp only [windspeed_runUpdates_cons]
      rw [ih _ r', List.getLast_cons (List.cons_ne_nil r' rs)]

/-- C6: a WindSpeedAlert's first ever update produces no output; each later
update emits the increasing alert naming the previous and current wind
speeds when current > previous and otherwise the no-upward-trend message;
and every call (including the first) stores the current wind speed as the
new previous value, so after any nonempty sequence of updates the stored
value is the last delivered wind speed. -/
theorem C6_wind_trend_behavior (t h w : ℚ) (rs : List (ℚ × ℚ × ℚ)) :
    WindSpeedAlert.update none t h w = (some w, none)
  ∧ (∀ prev, prev < w →
      WindSpeedAlert.update (some prev) t h w =
        (some w, some (Output.windIncreasing prev w)))
  ∧ (∀ prev, w ≤ prev →
      WindSpeedAlert.update (some prev) t h w = (some w, some Output.windNoTrend))
  ∧ (∀ last, (WindSpeedAlert.update last t h w).1 = some w)
  ∧ (WindSpeedAlert.runUpdates none ((t, h, w) :: rs)).2.head? = some none
  ∧ (WindSpeedAlert.runUpdates none ((t, h, w) :: rs)).1 =
      some (((t, h, w) :: rs).getLast (List.cons_ne_nil _ _)).2.2 := by
  refine ⟨rfl, fun prev hlt => ?_, fun prev hle => ?_, fun last => ?_, ?_, ?_⟩
  · rw [WindSpeedAlert.update, if_pos hlt]
  · rw [WindSpeedAlert.update, if_neg (not_lt.mpr hle)]
  · exact windspeed_update_fst last t h w
  · simp [windspeed_runUpdates_cons, WindSpeedAlert.update]
  · exact windspeed_runUpdates_final none (t, h, w) rs

/-- C6 witness: delivering wind speeds 10, 15, 12 produces no output, then
the increasing alert for 10 to 15, then the no-upward-trend line, and the
stored value ends at 12. -/
theorem C6_wind_trend_behavior_witness :
    WindSpeedAlert.update none 0 0 10 = (some 10, none)
  ∧ WindSpeedAlert.update (some 10) 0 0 15 =
      (some 15, some (Output.windIncreasing 10 15))
  ∧ WindSpeedAlert.update (some 15) 0 0 12 = (some 12, some Output.windNoTrend)
  ∧ (WindSpeedAlert.runUpdates none [(0, 0, 10), (0, 0, 15), (0, 0, 12)]).1 = some 12 := by
  refine ⟨(C6_wind_trend_behavior 0 0 10 []).1,
    (C6_wind_trend_behavior 0 0 15 []).2.1 10 (by norm_num),
    (C6_wind_trend_behavior 0 0 12 []).2.2.1 15 (by norm_num), ?_⟩
  have hfin := (C6_wind_trend_behavior 0 0 10 [(0, 0, 15), (0, 0, 12)]).2.2.2.2.2
  simpa using hfin

theorem reading_register (s : WeatherStation) (o : ℕ) :
    reading (register_observer s o) = reading s := by
  unfold register_observer reading
  split_ifs <;> rfl

theorem reading_remove (s : WeatherStation) (o : ℕ) :
    reading (remove_observer s o) = reading s := by
  unfold remove_observer reading
  split_ifs <;> rfl

theorem set_measurements_of_valid (s : WeatherStation) (t h w : ℚ)
    (hv : validate_measurements t h w = Except.ok ()) :
    set_measurements s t h w =
      ({ s with temperature := t, humidity := h, wind_speed := w },
       Except.ok (s.observers.map fun o => (o, t, h, w))) := by
  rw [set_measurements, hv]
  simp [notify_observers, notifyLoop_eq_map]

theorem set_measurements_of_invalid (s : WeatherStation) (t h w : ℚ)
    (e : InvalidMeasurement) (hv : validate_measurements t h w = Except.error e) :
    set_measurements s t h w = (s, Except.error e) := by
  rw [set_measurements, hv]

theorem step_set_of_valid (s : WeatherStation) (t h w : ℚ)
    (hv : validate_measurements t h w = Except.ok ()) :
    step s (Cmd.set t h w) =
      ({ s with temperature := t, humidity := h, wind_speed := w },
       s.observers.map fun o => (o, t, h, w)) := by
  rw [step, set_measurements_of_valid s t h w hv]

theorem step_set_of_invalid (s : WeatherStation) (t h w : ℚ)
    (e : InvalidMeasurement) (hv : validate_measurements t h w = Except.error e) :
    step s (Cmd.set t h w) = (s, []) := by
  rw [step, set_measurements_of_invalid s t h w e hv]

theorem isOk_iff_ok (r : Except InvalidMeasurement Unit) :
    r.isOk = true ↔ r = Except.ok () := by
  cases r with
  | error e => simp [Except.isOk, Except.toBool]
  | ok u => cases u; simp [Except.isOk, Except.toBool]

theorem run_reading (cs : List Cmd) (s : WeatherStation) :
    reading (run s cs) = (lastValidSet cs).getD (reading s) := by
  induction cs generalizing s with
  | nil => rfl
  | cons c cs ih =>
      cases c with
      | reg o =>
          show reading (run (register_observer s o) cs) =
            (lastValidSet cs).getD (reading s)
          rw [ih, reading_register]
      | rem o =>
          show reading (run (remove_observer s o) cs) =
            (lastValidSet cs).getD (reading s)
          rw [ih, reading_remove]
      | notify =>
          show reading (run s cs) = (lastValidSet cs).getD (reading s)
          exact ih s
      | set t h w =>
          rcases hval : validate_measurements t h w with e | u
          · have hstep : (step s (Cmd.set t h w)).1 = s := by
              rw [step_set_of_invalid s t h w e hval]
            rw [run, hstep, ih]
            rcases hls : lastValidSet cs with _ | r <;>
              simp [lastValidSet, hls, hval, Except.isOk, Except.toBool]
          · cases u
            have hstep : (step s (Cmd.set t h w)).1 =
                { s with temperature := t, humidity := h, wind_speed := w } := by
              rw [step_set_of_valid s t h w hval]
            rw [run, hstep, ih]
            rcases hls : lastValidSet cs with _ | r <;>
              simp [lastValidSet, hls, hval, Except.isOk, Except.toBool, reading]

theorem lastValidSet_valid (cs : List Cmd) (t h w : ℚ)
    (hls : lastValidSet cs = some (t, h, w)) : validTriple t h w := by
  induction cs with
  | nil => cases hls
  | cons c cs ih =>
      cases c with
      | reg o => exact ih hls
      | rem o => exact ih hls
      | notify => exact ih hls
      | set t' h' w' =>
          rw [lastValidSet] at hls
          rcases hcs : lastValidSet cs with _ | r
          · rw [hcs] at hls
            split_ifs at hls with hok
            · rcases hls with ⟨⟩
              exact (validate_ok_iff t h w).mp ((isOk_iff_ok _).mp hok)
          · rw [hcs] at hls
            rcases hls with ⟨⟩
            exact ih hcs

theorem step_preserves_valid (s : WeatherStation) (c : Cmd)
    (hv : validTriple s.temperature s.humidity s.wind_speed) :
    validTriple (step s c).1.temperature (step s c).1.humidity
      (step s c).1.wind_speed := by
  cases c with
  | reg o =>
      have hr := reading_register s o
      rw [reading, reading, Prod.mk.injEq, Prod.mk.injEq] at hr
      show validTriple (register_observer s o).temperature
        (register_observer s o).humidity (register_observer s o).wind_speed
      rw [hr.1, hr.2.1, hr.2.2]
      exact hv
  | rem o =>
      have hr := reading_remove s o
      rw [reading, reading, Prod.mk.injEq, Prod.mk.injEq] at hr
      show validTriple (remove_observer s o).temperature
        (remove_observer s o).humidity (remove_observer s o).wind_speed
      rw [hr.1, hr.2.1, hr.2.2]
      exact hv
  | notify => exact hv
  | set t h w =>
      rcases hval : validate_measurements t h w with e | u
      · rw [step_set_of_invalid s t h w e hval]
        exact hv
      · cases u
        rw [step_set_of_valid s t h w hval]
        exact (validate_ok_iff t h w).mp hval

theorem step_events_valid (s : WeatherStation) (c : Cmd)
    (hv : validTriple s.temperature s.humidity s.wind_speed) :
    ∀ e ∈ (step s c).2, validTriple e.2.1 e.2.2.1 e.2.2.2 := by
  cases c with
  | reg o => intro e he; cases he
  | rem o => intro e he; cases he
  | notify =>
      intro e he
      rw [step] at he
      change e ∈ notify_observers s at he
      rw [notify_observers, notifyLoop_eq_map] at he
      rcases List.mem_map.mp he with ⟨o, _, rfl⟩
      exact hv
  | set t h w =>
      intro e he
      rcases hval : validate_measurements t h w with e' | u
      · rw [step_set_of_invalid s t h w e' hval] at he
        cases he
      · cases u
        rw [step_set_of_valid s t h w hval] at he
        change e ∈ s.observers.map fun o => (o, t, h, w) at he
        rcases List.mem_map.mp he with ⟨o, _, rfl⟩
        exact (validate_ok_iff t h w).mp hval

theorem runEvents_valid (cs : List Cmd) (s : WeatherStation)
    (hv : validTriple s.temperature s.humidity s.wind_speed) :
    ∀ e ∈ runEvents s cs, validTriple e.2.1 e.2.2.1 e.2.2.2 := by
  induction cs generalizing s with
  | nil => intro e he; cases he
  | cons c cs ih =>
      intro e he
      rw [runEvents] at he
      rcases List.mem_append.mp he with he | he
      · exact step_events_valid s c hv e he
      · exact ih _ (step_preserves_valid s c hv) e he

/-- C7: in every reachable station state, the stored reading is the argument
of the most recent validated set_measurements call (when one exists), the
stored reading always lies in the validated range, and every update ever
delivered to an observer (through set_measurements or notify_observers)
carries a reading in the validated range — a reading that failed validation
can never be observed. -/
theorem C7_reading_invariant (cs : List Cmd) :
    (∀ t h w, lastValidSet cs = some (t, h, w) →
      reading (run WeatherStation.init cs) = (t, h, w))
  ∧ validTriple (run WeatherStation.init cs).temperature
      (run WeatherStation.init cs).humidity
      (run WeatherStation.init cs).wind_speed
  ∧ ∀ e ∈ runEvents WeatherStation.init cs,
      validTriple e.2.1 e.2.2.1 e.2.2.2 := by
  have hinit : validTriple WeatherStation.init.temperature
      WeatherStation.init.humidity WeatherStation.init.wind_speed := by
    rw [WeatherStation.init]
    norm_num [validTriple]
  refine ⟨fun t h w hls => ?_, ?_, runEvents_valid cs WeatherStation.init hinit⟩
  · rw [run_reading, hls]
    rfl
  · have hr := run_reading cs WeatherStation.init
    rcases hls : lastValidSet cs with _ | r
    · rw [hls] at hr
      rw [reading, Prod.mk.injEq, Prod.mk.injEq] at hr
      rw [hr.1, hr.2.1, hr.2.2]
      exact hinit
    · rcases r with ⟨t, ⟨h, w⟩⟩
      rw [hls] at hr
      rw [reading, Prod.mk.injEq, Prod.mk.injEq] at hr
      rw [hr.1, hr.2.1, hr.2.2]
      exact lastValidSet_valid cs t h w hls

/-- C7 witness: after registering observer 4, a successful set (25, 60, 15)
and a failing set (300, 0, 0), the stored reading is (25, 60, 15), it is in
the validated range, and every delivered update was in range. -/
theorem C7_reading_invariant_witness :
    reading (run WeatherStation.init
      [Cmd.reg 4, Cmd.set 25 60 15, Cmd.set 300 0 0]) = (25, 60, 15) :=
  (C7_reading_invariant [Cmd.reg 4, Cmd.set 25 60 15, Cmd.set 300 0 0]).1
    25 60 15 (by decide)

theorem notifyLoopExc_first_failure (fails : ℕ → Bool) (t h w : ℚ)
    (pre post : List ℕ) (k : ℕ)
    (hpre : ∀ o ∈ pre, fails o = false) (hk : fails k = true) :
    notifyLoopExc fails t h w (pre ++ k :: post) =
      (pre.map fun o => (o, t, h, w), some k) := by
  induction pre with
  | nil => simp [notifyLoopExc, hk]
  | cons p pre ih =>
      have hp : fails p = false := hpre p (List.mem_cons_self p pre)
      have ih' := ih fun o ho => hpre o (List.mem_cons_of_mem p ho)
      simp [notifyLoopExc, hp, ih']

/-- C8: if during the notification phase of a successful set_measurements
the registry is pre ++ k :: post, every observer in pre succeeds and k's
update raises, then exactly the observers in pre receive the update, the
failure propagates to the caller naming k, and (when the registry is
duplicate-free) none of the observers after k receives any update. -/
theorem C8_observer_failure_fail_fast (fails : ℕ → Bool) (s : WeatherStation)
    (t h w : ℚ) (pre post : List ℕ) (k : ℕ)
    (hok : validTriple t h w)
    (hobs : s.observers = pre ++ k :: post)
    (hpre : ∀ o ∈ pre, fails o = false) (hk : fails k = true) :
    set_measurements_exc fails s t h w =
      ({ s with temperature := t, humidity := h, wind_speed := w },
       pre.map fun o => (o, t, h, w), some (Sum.inr k))
  ∧ (s.observers.Nodup → ∀ o ∈ post,
      ∀ ev ∈ (set_measurements_exc fails s t h w).2.1, ev.1 ≠ o) := by
  have hv : validate_measurements t h w = Except.ok () :=
    (validate_ok_iff t h w).mpr hok
  have hmain : set_measurements_exc fails s t h w =
      ({ s with temperature := t, humidity := h, wind_speed := w },
       pre.map fun o => (o, t, h, w), some (Sum.inr k)) := by
    rw [set_measurements_exc, hv]
    simp only [hobs]
    rw [notifyLoopExc_first_failure fails t h w pre post k hpre hk]
    rfl
  refine ⟨hmain, fun hnd o ho ev hev => ?_⟩
  rw [hmain] at hev
  change ev ∈ pre.map (fun o => (o, t, h, w)) at hev
  rcases List.mem_map.mp hev with ⟨o', ho', rfl⟩
  rw [hobs] at hnd
  intro hcontra
  change o' = o at hcontra
  rcases List.nodup_append.mp hnd with ⟨_, _, hdisj⟩
  exact hdisj ho' (by rw [hcontra]; exact List.mem_cons_of_mem k ho)

/-- C8 witness: registry [1, 2, 3], observer 2 raises: only observer 1 is
updated, the failure names 2, and observer 3 gets nothing. -/
theorem C8_observer_failure_fail_fast_witness :
    set_measurements_exc (fun o => o == 2) ⟨[1, 2, 3], 0, 0, 0⟩ 25 60 15 =
      (⟨[1, 2, 3], 25, 60, 15⟩, [(1, 25, 60, 15)], some (Sum.inr 2))
  ∧ ∀ ev ∈ (set_measurements_exc (fun o => o == 2)
      ⟨[1, 2, 3], 0, 0, 0⟩ 25 60 15).2.1, ev.1 ≠ 3 := by
  have hres := C8_observer_failure_fail_fast (fun o => o == 2)
    ⟨[1, 2, 3], 0, 0, 0⟩ 25 60 15 [1] [3] 2
    (by norm_num [validTriple]) rfl (by decide) (by decide)
  exact ⟨hres.1, fun ev hev => hres.2 (by decide) 3 (by decide) ev hev⟩

theorem runEvents_regs (s : WeatherStation) (os : List ℕ) :
    runEvents s (os.map Cmd.reg) = [] := by
  induction os generalizing s with
  | nil => rfl
  | cons o os ih =>
      rw [List.map_cons, runEvents]
      simpa [step] using ih (register_observer s o)

/-- C9: notify_observers performs no validation (it applies to every station
state, with no validity requirement) and delivers exactly the currently
stored reading to every registered observer in registration order: it
leaves the station state unchanged; and register_observer by itself never
triggers delivery — a sequence of registrations delivers no update. -/
theorem C9_notify_resends_stored (s : WeatherStation) (os : List ℕ) :
    notify_observers s =
      s.observers.map (fun o => (o, s.temperature, s.humidity, s.wind_speed))
  ∧ (step s Cmd.notify).1 = s
  ∧ runEvents s (os.map Cmd.reg) = [] :=
  ⟨by rw [notify_observers, notifyLoop_eq_map], rfl, runEvents_regs s os⟩

theorem run_regs_observers (os : List ℕ) (s : WeatherStation)
    (hnd : os.Nodup) (hdisj : ∀ o ∈ os, o ∉ s.observers) :
    (run s (os.map Cmd.reg)).observers = s.observers ++ os := by
  induction os generalizing s with
  | nil => simp [run]
  | cons o os ih =>
      have ho : o ∉ s.observers := hdisj o (List.mem_cons_self o os)
      have hdisj' : ∀ o' ∈ os, o' ∉ (register_observer s o).observers := by
        intro o' ho'
        rw [register_observer_observers, if_neg ho]
        intro hmem
        rcases List.mem_append.mp hmem with hm | hm
        · exact hdisj o' (List.mem_cons_of_mem o ho') hm
        · rcases List.mem_singleton.mp hm with rfl
          exact (List.nodup_cons.mp hnd).1 ho'
      show (run (register_observer s o) (os.map Cmd.reg)).observers =
        s.observers ++ o :: os
      rw [ih (register_observer s o) (List.nodup_cons.mp hnd).2 hdisj']
      rw [register_observer_observers, if_neg ho]
      rw [List.append_assoc, List.singleton_append]

theorem lastValidSet_regs (os : List ℕ) :
    lastValidSet (os.map Cmd.reg) = none := by
  induction os with
  | nil => rfl
  | cons o os ih => exact ih

/-- C10: a freshly constructed station holds reading (0, 0, 0) and an empty
registry; registering any duplicate-free list of observers and then calling
notify_observers delivers the triple (0, 0, 0) — which never passed through
validation — to each of them, in order. -/
theorem C10_fresh_station_notifies_zero (os : List ℕ) (hnd : os.Nodup) :
    WeatherStation.init.temperature = 0
  ∧ WeatherStation.init.humidity = 0
  ∧ WeatherStation.init.wind_speed = 0
  ∧ WeatherStation.init.observers = []
  ∧ (run WeatherStation.init (os.map Cmd.reg)).observers = os
  ∧ notify_observers (run WeatherStation.init (os.map Cmd.reg)) =
      os.map fun o => (o, 0, 0, 0) := by
  have hobs : (run WeatherStation.init (os.map Cmd.reg)).observers = os := by
    rw [run_regs_observers os WeatherStation.init hnd
      (fun o _ => by simp [WeatherStation.init])]
    simp [WeatherStation.init]
  have hread : reading (run WeatherStation.init (os.map Cmd.reg)) = (0, 0, 0) := by
    rw [run_reading, lastValidSet_regs]
    rfl
  rw [reading, Prod.mk.injEq, Prod.mk.injEq] at hread
  refine ⟨rfl, rfl, rfl, rfl, hobs, ?_⟩
  rw [notify_observers, notifyLoop_eq_map, hread.1, hread.2.1, hread.2.2, hobs]

/-- C10 witness: registering observers 1 and 2 on a fresh station and
calling notify_observers delivers (0, 0, 0) to both, in order. -/
theorem C10_fresh_station_notifies_zero_witness :
    (run WeatherStation.init ([1, 2].map Cmd.reg)).observers = [1, 2]
  ∧ notify_observers (run WeatherStation.init ([1, 2].map Cmd.reg)) =
      [(1, 0, 0, 0), (2, 0, 0, 0)] := by
  have hc := C10_fresh_station_notifies_zero [1, 2] (by decide)
  exact ⟨hc.2.2.2.2.1, by rw [hc.2.2.2.2.2]; rfl⟩

end WeatherMonitoring
